import Mathlib

/-!
Shallow embedding of the joke-list application: the `localStorage` wrapper
(`src/utils/localStorage.js`), the `JokeList` controller (`fetchJokes`,
`limitAttributes`, `handleClearCache`) and the row renderer (`JokeRow`) from
`src/components/JokeList.jsx`.  JavaScript strings become `String`, JS
`null`/`undefined` fields become `Option`, JS truthiness of strings is made
explicit (the empty string is falsy), and the browser's key-value store is an
association list from keys to stored values.
-/

set_option autoImplicit false

namespace JokeApp

/-- The shrunk joke record written to the cache by `limitAttributes`:
only `id`, `summary`, `category` and `type` are kept. -/
structure ShrunkJoke where
  id : Int
  summary : String
  category : String
  jtype : String
  deriving DecidableEq, Repr

/-- A value held by the key-value store.  In the browser everything is a
string; a `JSON.stringify`-ed array of shrunk records is modelled directly as
`arr`, any other stored string as `str`. -/
inductive Value where
  | str : String → Value
  | arr : List ShrunkJoke → Value
  deriving DecidableEq, Repr

/-- The browser's local key-value store: an association list keyed by string.
Earlier entries shadow later ones; `setItem` removes the old binding. -/
def Store := List (String × Value)

instance : DecidableEq Store := inferInstanceAs (DecidableEq (List (String × Value)))

/-- `localStorage.getItem`: first binding for the key, if any. -/
def getItem : Store → String → Option Value
  | [], _ => none
  | p :: rest, k => if p.1 = k then some p.2 else getItem rest k

/-- `localStorage.removeItem`: drop every binding for the key. -/
def removeItem : Store → String → Store
  | [], _ => []
  | p :: rest, k => if p.1 = k then removeItem rest k else p :: removeItem rest k

/-- `localStorage.setItem`: bind the key to the value, shadowing and
discarding any previous binding. -/
def setItem (s : Store) (k : String) (v : Value) : Store :=
  (k, v) :: removeItem s k

/-- `loadJokesFromStorage` (src/utils/localStorage.js): read the key and
`JSON.parse` the stored string; an absent key or an unusable value yields
`none` (parse failures are swallowed). -/
def loadJokesFromStorage (store : Store) (key : String) : Option (List ShrunkJoke) :=
  match getItem store key with
  | some (Value.arr l) => some l
  | some (Value.str _) => none
  | none => none

/-- `saveJokesToStorage` (src/utils/localStorage.js): `JSON.stringify` the
records and store them under the key. -/
def saveJokesToStorage (store : Store) (key : String) (records : List ShrunkJoke) : Store :=
  setItem store key (Value.arr records)

/-- `clearJokesFromStorage` (src/utils/localStorage.js): remove the key. -/
def clearJokesFromStorage (store : Store) (key : String) : Store :=
  removeItem store key

/-- A raw joke object as found in the API response body: every text field may
be absent (`undefined`/`null`), and the `flags` object is a finite map from
flag names to booleans, kept in entry order. -/
structure RawJoke where
  id : Int
  joke : Option String
  setup : Option String
  delivery : Option String
  category : String
  jtype : String
  flags : Option (List (String × Bool))
  deriving DecidableEq, Repr

/-- A full joke record as produced by the `jokesArray.map` in `fetchJokes`
(lines 101-109 of JokeList.jsx): same fields as a raw joke, with falsy text
fields normalised to `null`. -/
structure FullJoke where
  id : Int
  joke : Option String
  setup : Option String
  delivery : Option String
  category : String
  jtype : String
  flags : Option (List (String × Bool))
  deriving DecidableEq, Repr

/-- JS truthiness of a possibly-absent string: absent and `""` are falsy. -/
def jsTruthy : Option String → Bool
  | some s => !(s = "")
  | none => false

/-- JS `x || null` on a possibly-absent string: a falsy value becomes `null`. -/
def jsOrNull (o : Option String) : Option String :=
  if jsTruthy o then o else none

/-- JS `x || dflt` on a possibly-absent string with a string default. -/
def jsStrOr (o : Option String) (dflt : String) : String :=
  match o with
  | some s => if s = "" then dflt else s
  | none => dflt

/-- The parsed JSON body of an API response.  `error`/`message` are the
API-level error fields, `jokes` is present exactly when the body carries a
`jokes` array, and `self` collects the body's own joke fields (used when the
body itself is a single joke object). -/
structure ApiBody where
  error : Bool
  message : Option String
  jokes : Option (List RawJoke)
  self : RawJoke
  deriving DecidableEq, Repr

/-- Normalisation step of `fetchJokes` (lines 87-93 of JokeList.jsx): use the
body's `jokes` array when present; otherwise wrap the body itself when
`data.joke || data.setup` is truthy; otherwise the empty array. -/
def normalizeJokes (data : ApiBody) : List RawJoke :=
  match data.jokes with
  | some arr => arr
  | none =>
    if jsTruthy data.self.joke || jsTruthy data.self.setup then [data.self] else []

/-- The per-record mapping of `fetchJokes` (lines 101-109 of JokeList.jsx):
`joke.joke || null` and friends, all other fields copied. -/
def processJoke (j : RawJoke) : FullJoke :=
  { id := j.id
  , joke := jsOrNull j.joke
  , setup := jsOrNull j.setup
  , delivery := jsOrNull j.delivery
  , category := j.category
  , jtype := j.jtype
  , flags := j.flags }

/-- JS `s.substring(0, 50)`: the first at most 50 code units of the string. -/
def jsSubstring50 (s : String) : String :=
  String.mk (s.data.take 50)

/-- `limitAttributes` (lines 19-29 of JokeList.jsx): project a full record to
its shrunk form.  The source reads `joke.setup.substring(0, 50)` (resp.
`joke.joke.substring(0, 50)`) without a null guard, so the projection is
undefined — a thrown `TypeError` — when the required field is `null`;
that is modelled by `none`. -/
def limitAttributes (j : FullJoke) : Option ShrunkJoke :=
  if j.jtype = "twopart" then
    j.setup.map (fun s =>
      { id := j.id, summary := jsSubstring50 s ++ "...", category := j.category, jtype := j.jtype })
  else
    j.joke.map (fun s =>
      { id := j.id, summary := jsSubstring50 s ++ "...", category := j.category, jtype := j.jtype })

/-- The list currently held in the `jokes` state: after a network commit it is
a list of full records, after a cache hit a list of shrunk records. -/
inductive Jokes where
  | full : List FullJoke → Jokes
  | shrunk : List ShrunkJoke → Jokes
  deriving DecidableEq, Repr

/-- Number of displayed records (`jokes.length`). -/
def Jokes.size : Jokes → Nat
  | Jokes.full l => l.length
  | Jokes.shrunk l => l.length

/-- The component state of `JokeList` (the `useState` hooks, `category`
excluded — it is passed to `fetchJokes` as an argument). -/
structure UiState where
  jokes : Jokes
  loading : Bool
  error : Option String
  fromCache : Bool
  lastUpdated : Option String
  deriving DecidableEq, Repr

/-- The initial component state: empty list, not loading, no error. -/
def initialState : UiState :=
  { jokes := Jokes.full [], loading := false, error := none
  , fromCache := false, lastUpdated := none }

/-- The outcome of the single awaited `fetch` call, as seen by `fetchJokes`:
either a non-ok response with its HTTP status, or an ok response whose JSON
body parsed to `data`. -/
inductive FetchResult where
  | httpError : Nat → FetchResult
  | success : ApiBody → FetchResult
  deriving DecidableEq, Repr

/-- Stand-in for `new Date(x).toLocaleString()`: a concrete formatting of the
date argument's string form. -/
def formatDate (s : String) : String :=
  "date(" ++ s ++ ")"

/-- Truthiness of a stored value, as JS sees the string `getItem` returns:
only the empty string is falsy (a stringified array is never empty). -/
def Value.truthy : Value → Bool
  | Value.str s => !(s = "")
  | Value.arr _ => true

/-- The string `getItem` returned, fed to the `Date` constructor. -/
def Value.asDateArg : Value → String
  | Value.str s => s
  | Value.arr _ => "[array]"

/-- Line 55 of JokeList.jsx:
`new Date(localStorage.getItem(tsKey) || Date.now()).toLocaleString()` —
display the stored timestamp, defaulting to the current time when the
timestamp key is absent (or its value falsy). -/
def tsDisplay (store : Store) (tsKey : String) (now : Nat) : String :=
  match getItem store tsKey with
  | some v => if v.truthy then formatDate v.asDateArg else formatDate (toString now)
  | none => formatDate (toString now)

/-- The result of one `fetchJokes` run: the component state after all
`set*` calls, the key-value store after all writes, and whether the network
was hit (`fetch` was called). -/
structure FetchOutcome where
  ui : UiState
  store : Store
  networkCalled : Bool
  deriving DecidableEq

/-- The cache probe at the top of `fetchJokes` (lines 47-58): skipped
entirely under `forceRefresh`; otherwise a hit requires a loadable value with
`length > 0`. -/
def cacheLookup (store : Store) (key : String) (forceRefresh : Bool) :
    Option (List ShrunkJoke) :=
  if forceRefresh then none
  else
    match loadJokesFromStorage store key with
    | some cachedJokes => if cachedJokes.length > 0 then some cachedJokes else none
    | none => none

/-- `processedJokes.map(limitAttributes)` (line 116): the projection of every
record, `none` when any single projection throws. -/
def shrinkAll (jokes : List FullJoke) : Option (List ShrunkJoke) :=
  jokes.mapM limitAttributes

/-- Error message thrown by `substring` on a `null` field inside
`limitAttributes`, caught by the surrounding `catch`. -/
def substringTypeError : String :=
  "Cannot read properties of null (reading 'substring')"

/-- The network half of `fetchJokes` (lines 63-129): `st1` is the state after
`setLoading(true); setError(null); setFromCache(false)`. -/
def networkStep (st1 : UiState) (store : Store) (storageKey : String)
    (net : FetchResult) (now : Nat) : FetchOutcome :=
  match net with
  | FetchResult.httpError status =>
    { ui := { st1 with
        error := some ("API responded with status: " ++ toString status),
        jokes := Jokes.full [], loading := false },
      store := store, networkCalled := true }
  | FetchResult.success data =>
    if data.error then
      { ui := { st1 with
          error := some (jsStrOr data.message "Unknown API error"),
          jokes := Jokes.full [], loading := false },
        store := store, networkCalled := true }
    else
      let jokesArray := normalizeJokes data
      if jokesArray.length = 0 then
        { ui := { st1 with
            error := some "No jokes found in the selected category",
            jokes := Jokes.full [], loading := false },
          store := store, networkCalled := true }
      else
        let processedJokes := jokesArray.map processJoke
        match shrinkAll processedJokes with
        | some limitedJokes =>
          { ui := { st1 with
              jokes := Jokes.full processedJokes,
              lastUpdated := some (formatDate (toString now)), loading := false },
            store := setItem (saveJokesToStorage store storageKey limitedJokes)
              (storageKey ++ ":timestamp") (Value.str (toString now)),
            networkCalled := true }
        | none =>
          -- `setJokes(processedJokes)` and `setLastUpdated` ran before the
          -- `TypeError`; the catch block then overwrote jokes and set error.
          { ui := { st1 with
              jokes := Jokes.full [],
              lastUpdated := some (formatDate (toString now)),
              error := some substringTypeError, loading := false },
            store := store, networkCalled := true }

/-- `fetchJokes` (lines 42-130 of JokeList.jsx) as a transition on the
component state and the key-value store, parameterised by the network's
answer `net` and the current time `now` (epoch milliseconds). -/
def fetchJokes (store : Store) (st : UiState) (selectedCategory : String)
    (forceRefresh : Bool) (net : FetchResult) (now : Nat) : FetchOutcome :=
  let storageKey := "jokes:" ++ selectedCategory
  match cacheLookup store storageKey forceRefresh with
  | some cachedJokes =>
    { ui := { st with
        jokes := Jokes.shrunk cachedJokes, fromCache := true,
        lastUpdated := some (tsDisplay store (storageKey ++ ":timestamp") now),
        loading := false },
      store := store, networkCalled := false }
  | none =>
    networkStep { st with loading := true, error := none, fromCache := false }
      store storageKey net now

/-- The deletion half of `handleClearCache` (lines 146-147): remove the
record key and the timestamp key for the category. -/
def clearBothKeys (store : Store) (category : String) : Store :=
  removeItem (clearJokesFromStorage store ("jokes:" ++ category))
    ("jokes:" ++ category ++ ":timestamp")

/-- `handleClearCache` (lines 145-149): delete both keys, then force-refresh. -/
def handleClearCache (store : Store) (st : UiState) (category : String)
    (net : FetchResult) (now : Nat) : FetchOutcome :=
  fetchJokes (clearBothKeys store category) st category true net now

/-- The names of the true-valued flags, in entry order (lines 197-200 of
JokeList.jsx): `Object.entries(flags).filter(([_, v]) => v).map(([k]) => k)`. -/
def trueFlagNames (flags : List (String × Bool)) : List String :=
  (flags.filter (fun p => p.2)).map (fun p => p.1)

/-- The full-record (not-from-cache) rendering of one row: the joke text
lines, the meta line's category and id, and the content of the `joke-flags`
span — JokeList.jsx renders that span unconditionally, with
`Object.entries(joke.flags || {})` filtered to the true flags and joined. -/
structure FullView where
  mainLines : List String
  category : String
  idNum : Int
  flagsText : String
  deriving DecidableEq, Repr

/-- The cached (from-cache) rendering of one row: summary plus meta line. -/
structure CachedView where
  summary : String
  category : String
  idNum : Int
  jtype : String
  deriving DecidableEq, Repr

/-- What one row of the virtualized list renders to. -/
inductive RowView where
  | empty : RowView
  | cachedV : CachedView → RowView
  | fullV : FullView → RowView
  deriving DecidableEq, Repr

/-- The not-from-cache branch of `JokeRow` (lines 178-204 of JokeList.jsx)
applied to a full record: `setup`/`delivery` for a twopart joke, the single
text otherwise (a `null` field renders as nothing), and the flags span. -/
def renderFull (j : FullJoke) : FullView :=
  { mainLines :=
      if j.jtype = "twopart" then [j.setup.getD "", j.delivery.getD ""]
      else [j.joke.getD ""]
  , category := j.category
  , idNum := j.id
  , flagsText := String.intercalate ", " (trueFlagNames (j.flags.getD [])) }

/-- The from-cache branch of `JokeRow` (lines 167-177) applied to a shrunk
record. -/
def renderCached (s : ShrunkJoke) : CachedView :=
  { summary := s.summary, category := s.category, idNum := s.id, jtype := s.jtype }

/-- `JokeRow` (lines 159-208 of JokeList.jsx): look up `jokes[index]`; when
the element is absent return `null` (render nothing); otherwise branch on
`fromCache`.  The shape mismatch cases (a full record rendered by the cached
branch and vice versa) read absent fields, which render as nothing — JS
`undefined` interpolates to the empty string. -/
def JokeRow (fromCache : Bool) (jokes : Jokes) (index : Nat) : RowView :=
  match jokes with
  | Jokes.full l =>
    match l.get? index with
    | none => RowView.empty
    | some j =>
      if fromCache then
        RowView.cachedV { summary := "", category := j.category, idNum := j.id, jtype := j.jtype }
      else RowView.fullV (renderFull j)
  | Jokes.shrunk l =>
    match l.get? index with
    | none => RowView.empty
    | some s =>
      if fromCache then RowView.cachedV (renderCached s)
      else
        RowView.fullV
          { mainLines := if s.jtype = "twopart" then ["", ""] else [""]
          , category := s.category, idNum := s.id, flagsText := "" }

/-- The flags span of the second `JokeRow` variant (lines 438-449 of the
unnamed source file): the whole span is emitted only when `joke.flags` is
present and some flag is true —
`joke.flags && Object.values(joke.flags).some(flag => flag) && <span>…</span>`. -/
def flagsSpanAlt (flags : Option (List (String × Bool))) : Option String :=
  match flags with
  | some fl =>
    if (fl.map (fun p => p.2)).any id then
      some ("Flags: " ++ String.intercalate ", " (trueFlagNames fl))
    else none
  | none => none

/-- A raw joke with every optional field absent and empty strings elsewhere,
used to build concrete response bodies. -/
def emptyRaw : RawJoke :=
  { id := 0, joke := none, setup := none, delivery := none
  , category := "", jtype := "", flags := none }

/-- A concrete successful response body `{jokes: []}`. -/
def emptyJokesBody : ApiBody :=
  { error := false, message := none, jokes := some [], self := emptyRaw }

/-- A concrete successful response body whose only joke field is the empty
string: `{joke: ""}` (no `jokes` array, no `setup`). -/
def emptyStringJokeBody : ApiBody :=
  { error := false, message := none, jokes := none
  , self := { emptyRaw with joke := some "" } }

/-- A concrete single-type raw joke, as in the spec's Programming scenario. -/
def raw1 : RawJoke :=
  { id := 1, joke := some "why did the chicken cross the road", setup := none
  , delivery := none, category := "Programming", jtype := "single"
  , flags := some [("nsfw", false)] }

/-- A concrete successful body carrying a one-element `jokes` array. -/
def body1 : ApiBody :=
  { error := false, message := none, jokes := some [raw1], self := emptyRaw }

/-- A concrete successful body that is itself a single joke object. -/
def singleJokeBody : ApiBody :=
  { error := false, message := none, jokes := none,
    self := { emptyRaw with
              id := 2, joke := some "a short joke",
              category := "Pun", jtype := "single" } }

/-- The shrunk projection of `raw1` after processing. -/
def shrunkChicken : ShrunkJoke :=
  { id := 1, summary := jsSubstring50 "why did the chicken cross the road" ++ "..."
  , category := "Programming", jtype := "single" }

/-- A concrete shrunk record as the cache would hold it. -/
def shrunk1 : ShrunkJoke :=
  { id := 1, summary := "why did the chicken cross the road..."
  , category := "Programming", jtype := "single" }

/-- A store holding a populated cache entry for the Programming category
(without its timestamp key). -/
def cachedStore : Store :=
  [("jokes:Programming", Value.arr [shrunk1])]

/-- A concrete full record with one true and one false content flag. -/
def flaggedJoke : FullJoke :=
  { id := 3, joke := some "j", setup := none, delivery := none
  , category := "Dark", jtype := "single"
  , flags := some [("nsfw", true), ("political", false)] }

/-- Two full twopart records whose setups agree on their first 50 characters
and differ at the 51st: their shrunk projections coincide, witnessing that
the summary truncation is lossy. -/
def longSetupA : FullJoke :=
  { id := 7, joke := none
  , setup := some "aaaaaaaaaaaaaaaaaaaaaaaaaaaaaaaaaaaaaaaaaaaaaaaaaaA"
  , delivery := some "d", category := "Pun", jtype := "twopart", flags := none }

/-- See `longSetupA`. -/
def longSetupB : FullJoke :=
  { longSetupA with
    setup := some "aaaaaaaaaaaaaaaaaaaaaaaaaaaaaaaaaaaaaaaaaaaaaaaaaaB" }

section StoreLemmas

theorem getItem_removeItem_self (s : Store) (k : String) :
    getItem (removeItem s k) k = none := by
  induction s with
  | nil => rfl
  | cons p rest ih =>
    by_cases h : p.1 = k
    · simpa [removeItem, h] using ih
    · simpa [removeItem, getItem, h] using ih

theorem getItem_removeItem_ne (s : Store) (k k' : String) (h : k ≠ k') :
    getItem (removeItem s k') k = getItem s k := by
  induction s with
  | nil => rfl
  | cons p rest ih =>
    by_cases hp : p.1 = k'
    · have hpk : ¬ p.1 = k := fun hh => h (hh ▸ hp)
      simp [removeItem, getItem, hp, hpk, Ne.symm h, ih]
    · by_cases hk : p.1 = k
      · simp [removeItem, getItem, hp, hk, h]
      · simp [removeItem, getItem, hp, hk, ih]

theorem removeItem_idem (s : Store) (k : String) :
    removeItem (removeItem s k) k = removeItem s k := by
  induction s with
  | nil => rfl
  | cons p rest ih =>
    by_cases h : p.1 = k
    · simpa [removeItem, h] using ih
    · simp [removeItem, h, ih]

theorem getItem_setItem_self (s : Store) (k : String) (v : Value) :
    getItem (setItem s k v) k = some v := by
  simp [setItem, getItem]

theorem getItem_setItem_ne (s : Store) (k k' : String) (v : Value) (h : k ≠ k') :
    getItem (setItem s k' v) k = getItem s k := by
  simp [setItem, getItem, Ne.symm h]
  exact getItem_removeItem_ne s k k' h

theorem key_ne_timestampKey (k : String) : k ≠ k ++ ":timestamp" := by
  intro h
  have h2 : k.length = k.length + (":timestamp").length := by
    simpa [String.length_append] using congrArg String.length h
  have h3 : (":timestamp").length = 10 := rfl
  omega

theorem networkStep_networkCalled (st1 : UiState) (store : Store) (key : String)
    (net : FetchResult) (now : Nat) :
    (networkStep st1 store key net now).networkCalled = true := by
  cases net with
  | httpError status => rfl
  | success d =>
    by_cases hd : d.error = true
    · simp [networkStep, hd]
    · by_cases hl : (normalizeJokes d).length = 0
      · simp [networkStep, hd, hl]
      · cases hm : shrinkAll ((normalizeJokes d).map processJoke) with
        | some lim => simp [networkStep, hd, hl, hm]
        | none => simp [networkStep, hd, hl, hm]

end StoreLemmas

/-- C7: the Clear Cache action deletes both the record key and the timestamp
key for the current category, and the store-level delete is idempotent: a
second delete of the same key leaves the store unchanged. -/
theorem clearCache_deletes_both_keys_and_delete_idempotent :
    (∀ (store : Store) (category : String),
       getItem (clearBothKeys store category) ("jokes:" ++ category) = none ∧
       getItem (clearBothKeys store category)
         ("jokes:" ++ category ++ ":timestamp") = none) ∧
    (∀ (store : Store) (k : String),
       removeItem (removeItem store k) k = removeItem store k) := by
  refine ⟨fun store category => ⟨?_, ?_⟩, fun store k => removeItem_idem store k⟩
  · rw [clearBothKeys, clearJokesFromStorage,
      getItem_removeItem_ne _ _ _ (key_ne_timestampKey _)]
    exact getItem_removeItem_self _ _
  · exact getItem_removeItem_self _ _

/-- C9: the row renderer looks up `jokes[index]` and renders nothing when the
index is out of range of the jokes array. -/
theorem jokeRow_out_of_range (fromCache : Bool) (jokes : Jokes) (index : Nat)
    (h : jokes.size ≤ index) :
    JokeRow fromCache jokes index = RowView.empty := by
  cases jokes with
  | full l =>
    have hg : l[index]? = none := List.getElem?_eq_none (by simpa [Jokes.size] using h)
    simp [JokeRow, hg]
  | shrunk l =>
    have hg : l[index]? = none := List.getElem?_eq_none (by simpa [Jokes.size] using h)
    simp [JokeRow, hg]

/-- Witness for C9 at a concrete out-of-range index. -/
theorem jokeRow_out_of_range_witness :
    JokeRow true (Jokes.shrunk [shrunk1]) 3 = RowView.empty :=
  jokeRow_out_of_range true (Jokes.shrunk [shrunk1]) 3 (by decide)

/-- C6: the shrunk projection keeps id, category and type, its summary is the
first at most 50 characters of the setup (twopart) or of the single joke text
(otherwise) followed by the ellipsis marker, and the projection is lossy. -/
theorem limitAttributes_shrinks_and_is_lossy :
    (∀ (j : FullJoke) (s : String), j.jtype = "twopart" → j.setup = some s →
       limitAttributes j =
         some { id := j.id, summary := jsSubstring50 s ++ "...",
                category := j.category, jtype := j.jtype }) ∧
    (∀ (j : FullJoke) (s : String), j.jtype ≠ "twopart" → j.joke = some s →
       limitAttributes j =
         some { id := j.id, summary := jsSubstring50 s ++ "...",
                category := j.category, jtype := j.jtype }) ∧
    (∀ s : String, (jsSubstring50 s).data = s.data.take 50) ∧
    (∀ s : String, (jsSubstring50 s).length ≤ 50) ∧
    (∃ j1 j2 : FullJoke, j1 ≠ j2 ∧ limitAttributes j1 = limitAttributes j2) := by
  refine ⟨?_, ?_, fun _ => rfl, ?_, ⟨longSetupA, longSetupB, ?_, ?_⟩⟩
  · intro j s hty hs
    simp [limitAttributes, hty, hs]
  · intro j s hty hs
    simp [limitAttributes, hty, hs]
  · intro s
    have h1 : (jsSubstring50 s).length = (s.data.take 50).length := rfl
    rw [h1, List.length_take]
    exact Nat.min_le_left _ _
  · decide
  · decide

/-- Witness for C6 at a concrete twopart record. -/
theorem limitAttributes_shrinks_witness :
    limitAttributes longSetupA =
      some { id := 7,
             summary := jsSubstring50 "aaaaaaaaaaaaaaaaaaaaaaaaaaaaaaaaaaaaaaaaaaaaaaaaaaA" ++ "...",
             category := "Pun", jtype := "twopart" } :=
  limitAttributes_shrinks_and_is_lossy.1 longSetupA
    "aaaaaaaaaaaaaaaaaaaaaaaaaaaaaaaaaaaaaaaaaaaaaaaaaaA" rfl rfl

/-- C8: in the fresh/full rendering mode, the row shows the names of exactly
the content flags whose value is true; in the variant renderer the flags
element is omitted entirely when no flag is true (or the flags map absent). -/
theorem fullView_flags_display :
    (∀ (fl : List (String × Bool)) (n : String),
       n ∈ trueFlagNames fl ↔ (n, true) ∈ fl) ∧
    (∀ (j : FullJoke) (fl : List (String × Bool)), j.flags = some fl →
       (renderFull j).flagsText = String.intercalate ", " (trueFlagNames fl)) ∧
    (∀ fl : List (String × Bool),
       (flagsSpanAlt (some fl) = none ↔ ∀ p ∈ fl, p.2 = false)) ∧
    flagsSpanAlt none = none := by
  refine ⟨?_, ?_, ?_, rfl⟩
  · intro fl n
    simp only [trueFlagNames, List.mem_map, List.mem_filter]
    constructor
    · rintro ⟨⟨a, b⟩, ⟨hmem, hb⟩, hfst⟩
      simp only at hb hfst
      subst hfst
      cases b with
      | true => exact hmem
      | false => cases hb
    · intro hmem
      exact ⟨(n, true), ⟨hmem, rfl⟩, rfl⟩
  · intro j fl h
    simp [renderFull, h]
  · intro fl
    by_cases h : (fl.map (fun p => p.2)).any id
    · simp only [flagsSpanAlt, h, if_true]
      constructor
      · intro hcontra; cases hcontra
      · intro hall
        rw [List.any_eq_true] at h
        obtain ⟨b, hb, hid⟩ := h
        rw [List.mem_map] at hb
        obtain ⟨p, hp, hpb⟩ := hb
        have : p.2 = false := hall p hp
        rw [this] at hpb
        subst hpb
        cases hid
    · simp only [flagsSpanAlt, h, if_false]
      constructor
      · intro _ p hp
        by_contra hpt
        apply h
        rw [List.any_eq_true]
        exact ⟨p.2, List.mem_map.mpr ⟨p, hp, rfl⟩, by simpa using hpt⟩
      · intro _; rfl

/-- Witness for C8 at a concrete flags map. -/
theorem fullView_flags_display_witness :
    (renderFull flaggedJoke).flagsText =
      String.intercalate ", " (trueFlagNames [("nsfw", true), ("political", false)]) :=
  fullView_flags_display.2.1 flaggedJoke [("nsfw", true), ("political", false)] rfl

/-- C1: for every category, when `forceRefresh` is false and the cache load
returns a non-empty sequence, resolve sets `jokes` to it, `fromCache` to
true, `lastUpdated` from the companion timestamp key (defaulting to the
current time when that key is absent), `loading` to false, and performs no
network call (the store is untouched). -/
theorem fastPath_cache_hit (store : Store) (st : UiState) (category : String)
    (net : FetchResult) (now : Nat) (l : List ShrunkJoke)
    (hload : loadJokesFromStorage store ("jokes:" ++ category) = some l)
    (hne : l ≠ []) :
    (fetchJokes store st category false net now).networkCalled = false ∧
    (fetchJokes store st category false net now).store = store ∧
    (fetchJokes store st category false net now).ui.jokes = Jokes.shrunk l ∧
    (fetchJokes store st category false net now).ui.fromCache = true ∧
    (fetchJokes store st category false net now).ui.loading = false ∧
    (fetchJokes store st category false net now).ui.lastUpdated =
      some (tsDisplay store ("jokes:" ++ category ++ ":timestamp") now) ∧
    (getItem store ("jokes:" ++ category ++ ":timestamp") = none →
       tsDisplay store ("jokes:" ++ category ++ ":timestamp") now =
         formatDate (toString now)) := by
  have hcache : cacheLookup store ("jokes:" ++ category) false = some l := by
    simp [cacheLookup, hload, List.length_pos.mpr hne]
  refine ⟨?_, ?_, ?_, ?_, ?_, ?_, ?_⟩
  · simp [fetchJokes, hcache]
  · simp [fetchJokes, hcache]
  · simp [fetchJokes, hcache]
  · simp [fetchJokes, hcache]
  · simp [fetchJokes, hcache]
  · simp [fetchJokes, hcache]
  · intro habs
    simp [tsDisplay, habs]

/-- Witness for C1 at a concrete populated cache. -/
theorem fastPath_cache_hit_witness :
    (fetchJokes cachedStore initialState "Programming" false
      (FetchResult.httpError 500) 7).networkCalled = false ∧
    (fetchJokes cachedStore initialState "Programming" false
      (FetchResult.httpError 500) 7).ui.fromCache = true :=
  ⟨(fastPath_cache_hit cachedStore initialState "Programming"
      (FetchResult.httpError 500) 7 [shrunk1] (by decide) (by decide)).1,
   (fastPath_cache_hit cachedStore initialState "Programming"
      (FetchResult.httpError 500) 7 [shrunk1] (by decide) (by decide)).2.2.2.1⟩

/-- C10: the cache-hit fast path leaves the error state unchanged: with a
prior error set, a resolve that succeeds from cache sets jokes, fromCache,
lastUpdated and loading but does not clear the error. -/
theorem fastPath_preserves_error (store : Store) (st : UiState) (category : String)
    (net : FetchResult) (now : Nat) (l : List ShrunkJoke) (msg : String)
    (hload : loadJokesFromStorage store ("jokes:" ++ category) = some l)
    (hne : l ≠ [])
    (herr : st.error = some msg) :
    (fetchJokes store st category false net now).ui.error = some msg ∧
    (fetchJokes store st category false net now).ui.jokes = Jokes.shrunk l ∧
    (fetchJokes store st category false net now).ui.fromCache = true ∧
    (fetchJokes store st category false net now).ui.loading = false ∧
    ((fetchJokes store st category false net now).ui.lastUpdated).isSome = true := by
  have hcache : cacheLookup store ("jokes:" ++ category) false = some l := by
    simp [cacheLookup, hload, List.length_pos.mpr hne]
  refine ⟨?_, ?_, ?_, ?_, ?_⟩ <;> simp [fetchJokes, hcache, herr]

/-- Witness for C10: a state with a stale error message keeps it across a
cache-hit resolve. -/
theorem fastPath_preserves_error_witness :
    (fetchJokes cachedStore { initialState with error := some "old failure" }
      "Programming" false (FetchResult.httpError 500) 7).ui.error = some "old failure" :=
  (fastPath_preserves_error cachedStore { initialState with error := some "old failure" }
    "Programming" (FetchResult.httpError 500) 7 [shrunk1] "old failure"
    (by decide) (by decide) rfl).1

/-- C2: with `forceRefresh` true a network call happens regardless of the
prior cache state, and on success the cache entry for the category is
overwritten: jokes are the full records, fromCache is false, lastUpdated is
the current time, and the shrunk projection plus the timestamp are stored
under the category's key. -/
theorem forceRefresh_fetches_and_overwrites (store : Store) (st : UiState)
    (category : String) (net : FetchResult) (now : Nat) (data : ApiBody)
    (limited : List ShrunkJoke)
    (herr : data.error = false)
    (hne : normalizeJokes data ≠ [])
    (hlim : shrinkAll ((normalizeJokes data).map processJoke) = some limited) :
    (fetchJokes store st category true net now).networkCalled = true ∧
    (fetchJokes store st category true (FetchResult.success data) now).ui.jokes =
      Jokes.full ((normalizeJokes data).map processJoke) ∧
    (fetchJokes store st category true (FetchResult.success data) now).ui.fromCache = false ∧
    (fetchJokes store st category true (FetchResult.success data) now).ui.lastUpdated =
      some (formatDate (toString now)) ∧
    getItem (fetchJokes store st category true (FetchResult.success data) now).store
      ("jokes:" ++ category) = some (Value.arr limited) ∧
    getItem (fetchJokes store st category true (FetchResult.success data) now).store
      ("jokes:" ++ category ++ ":timestamp") = some (Value.str (toString now)) := by
  have hcache : cacheLookup store ("jokes:" ++ category) true = none := rfl
  have hlen : ¬ (normalizeJokes data).length = 0 := by
    simpa [List.length_eq_zero] using hne
  refine ⟨?_, ?_, ?_, ?_, ?_, ?_⟩
  · simp only [fetchJokes, hcache]
    exact networkStep_networkCalled _ _ _ _ _
  · simp [fetchJokes, hcache, networkStep, herr, hlen, hlim]
  · simp [fetchJokes, hcache, networkStep, herr, hlen, hlim]
  · simp [fetchJokes, hcache, networkStep, herr, hlen, hlim]
  · simp only [fetchJokes, hcache, networkStep, herr, Bool.false_eq_true, if_false,
      hlen, hlim]
    rw [saveJokesToStorage, getItem_setItem_ne _ _ _ _ (key_ne_timestampKey _)]
    exact getItem_setItem_self _ _ _
  · simp only [fetchJokes, hcache, networkStep, herr, Bool.false_eq_true, if_false,
      hlen, hlim]
    exact getItem_setItem_self _ _ _

/-- Witness for C2 at a concrete one-record body over a pre-populated store. -/
theorem forceRefresh_fetches_and_overwrites_witness :
    (fetchJokes cachedStore initialState "Programming" true
      (FetchResult.success body1) 99).networkCalled = true ∧
    getItem (fetchJokes cachedStore initialState "Programming" true
      (FetchResult.success body1) 99).store ("jokes:" ++ "Programming") =
      some (Value.arr [shrunkChicken]) :=
  ⟨(forceRefresh_fetches_and_overwrites cachedStore initialState "Programming"
      (FetchResult.success body1) 99 body1 [shrunkChicken] rfl (by decide) (by decide)).1,
   (forceRefresh_fetches_and_overwrites cachedStore initialState "Programming"
      (FetchResult.success body1) 99 body1 [shrunkChicken] rfl (by decide) (by decide)).2.2.2.2.1⟩

/-- C3: a non-success HTTP status makes resolve fail with an error message
containing the status code; the error state is set to that message, jokes are
cleared to empty and loading is set to false. -/
theorem httpError_sets_error_and_clears (store : Store) (st : UiState)
    (category : String) (force : Bool) (now status : Nat)
    (hmiss : cacheLookup store ("jokes:" ++ category) force = none) :
    (fetchJokes store st category force (FetchResult.httpError status) now).ui.error =
      some ("API responded with status: " ++ toString status) ∧
    (∃ pre post : String,
      (fetchJokes store st category force (FetchResult.httpError status) now).ui.error =
        some (pre ++ toString status ++ post)) ∧
    (fetchJokes store st category force (FetchResult.httpError status) now).ui.jokes =
      Jokes.full [] ∧
    (fetchJokes store st category force (FetchResult.httpError status) now).ui.loading =
      false ∧
    (fetchJokes store st category force (FetchResult.httpError status) now).networkCalled =
      true := by
  refine ⟨?_, ⟨"API responded with status: ", "", ?_⟩, ?_, ?_, ?_⟩ <;>
    simp [fetchJokes, hmiss, networkStep]

/-- Witness for C3: an HTTP 500 on an empty store. -/
theorem httpError_sets_error_and_clears_witness :
    (fetchJokes ([] : Store) initialState "Programming" false
      (FetchResult.httpError 500) 0).ui.error =
      some ("API responded with status: " ++ toString 500) :=
  (httpError_sets_error_and_clears ([] : Store) initialState "Programming" false 0 500
    (by decide)).1

/-- C4 counterexample: at the body `{jokes: []}` the code's error message is
"No jokes found in the selected category", which is not the claimed
"no jokes found in the selected category". -/
theorem emptyResult_message_is_capitalized :
    (fetchJokes ([] : Store) initialState "Programming" false
        (FetchResult.success emptyJokesBody) 0).ui.error =
      some "No jokes found in the selected category" ∧
    (fetchJokes ([] : Store) initialState "Programming" false
        (FetchResult.success emptyJokesBody) 0).ui.error ≠
      some "no jokes found in the selected category" := by
  decide

/-- C4 amended: a successful body whose normalized joke array is empty makes
resolve fail with the message "No jokes found in the selected category"
(capital N); the error state is set and jokes stay empty. -/
theorem emptyResult_sets_error (store : Store) (st : UiState) (category : String)
    (force : Bool) (now : Nat) (data : ApiBody)
    (hmiss : cacheLookup store ("jokes:" ++ category) force = none)
    (herr : data.error = false)
    (hempty : normalizeJokes data = []) :
    (fetchJokes store st category force (FetchResult.success data) now).ui.error =
      some "No jokes found in the selected category" ∧
    (fetchJokes store st category force (FetchResult.success data) now).ui.jokes =
      Jokes.full [] ∧
    (fetchJokes store st category force (FetchResult.success data) now).ui.loading =
      false ∧
    (fetchJokes store st category force (FetchResult.success data) now).networkCalled =
      true := by
  refine ⟨?_, ?_, ?_, ?_⟩ <;> simp [fetchJokes, hmiss, networkStep, herr, hempty]

/-- Witness for the amended C4 at the body `{jokes: []}`. -/
theorem emptyResult_sets_error_witness :
    (fetchJokes ([] : Store) initialState "Programming" false
      (FetchResult.success emptyJokesBody) 0).ui.jokes = Jokes.full [] :=
  (emptyResult_sets_error ([] : Store) initialState "Programming" false 0 emptyJokesBody
    (by decide) rfl rfl).2.1

/-- C5 counterexample: a body whose only joke field is the empty string (no
`jokes` array, no `setup`) normalizes to the empty array, not to a
one-element array wrapping the body. -/
theorem normalize_empty_string_not_wrapped :
    emptyStringJokeBody.jokes = none ∧
    emptyStringJokeBody.self.joke = some "" ∧
    normalizeJokes emptyStringJokeBody = [] ∧
    normalizeJokes emptyStringJokeBody ≠ [emptyStringJokeBody.self] := by
  decide

/-- C5 amended: normalization yields the body's `jokes` array when present; a
one-element array wrapping the body when the body has a non-empty `joke` or
`setup` field; and the empty array when both fields are absent or empty
strings. -/
theorem normalize_cases (data : ApiBody) :
    (∀ arr : List RawJoke, data.jokes = some arr → normalizeJokes data = arr) ∧
    (data.jokes = none →
       (∃ s : String, s ≠ "" ∧
          (data.self.joke = some s ∨ data.self.setup = some s)) →
       normalizeJokes data = [data.self]) ∧
    (data.jokes = none →
       (∀ s : String, data.self.joke = some s → s = "") →
       (∀ s : String, data.self.setup = some s → s = "") →
       normalizeJokes data = []) := by
  refine ⟨?_, ?_, ?_⟩
  · intro arr h
    simp [normalizeJokes, h]
  · rintro hj ⟨s, hs, h1 | h1⟩ <;> simp [normalizeJokes, hj, jsTruthy, h1, hs]
  · intro hj h1 h2
    have hjt : jsTruthy data.self.joke = false := by
      cases hv : data.self.joke with
      | none => rfl
      | some s => simp [jsTruthy, h1 s hv]
    have hst : jsTruthy data.self.setup = false := by
      cases hv : data.self.setup with
      | none => rfl
      | some s => simp [jsTruthy, h2 s hv]
    simp [normalizeJokes, hj, hjt, hst]

/-- Witness for the amended C5: a body that is itself a single joke with a
non-empty text is wrapped into a one-element array. -/
theorem normalize_cases_witness :
    normalizeJokes singleJokeBody = [singleJokeBody.self] :=
  (normalize_cases singleJokeBody).2.1 rfl ⟨"a short joke", by decide, Or.inl rfl⟩

end JokeApp
